import Mathlib

/-!
Verification of the cc-sdd deployment-planning and conflict-resolution core.

The embedding follows the TypeScript sources: `src/tools/cc-sdd/src/index.ts`
(conflict handler, dry-run and execution drivers), `src/tools/cc-sdd/src/resolvers/agentLayout.ts`
and the agent registry. Components whose implementation files are not in the
source tree (manifest planner, file-operation builder, category-policy resolver
internals, executor) are modelled from the specification, as marked on each
definition.
-/

namespace CcSdd

/-- Global overwrite setting (`src/cli/args.ts`, `OverwritePolicy`). -/
inductive OverwritePolicy
  | prompt
  | skip
  | force
deriving DecidableEq, Repr

/-- Per-category resolved execution policy (`src/plan/executor.ts`, `CategoryPolicy`). -/
inductive CategoryPolicy
  | force
  | skip
  | prompt
deriving DecidableEq, Repr

/-- Result of resolving one conflicting file (`src/plan/executor.ts`, `ConflictDecision`). -/
inductive ConflictDecision
  | overwrite
  | skip
  | append
deriving DecidableEq, Repr

/-- Information handed to the conflict handler for one conflicting file
(`src/plan/executor.ts`, `ConflictInfo`). -/
structure ConflictInfo where
  category : String
  sourceMode : String
  relTargetPath : String
deriving DecidableEq, Repr

/-- Association-list lookup keyed by strings; stands in for the JavaScript `Map.get`. -/
def alookup {β : Type} (cat : String) : List (String × β) → Option β
  | [] => none
  | e :: rest => if e.1 = cat then some e.2 else alookup cat rest

/-- Association-list update; stands in for the JavaScript `Map.set`. -/
def aset {β : Type} (m : List (String × β)) (cat : String) (v : β) : List (String × β) :=
  (cat, v) :: m.filter (fun e => decide (e.1 ≠ cat))

/-! ### Filesystem model -/

/-- A filesystem is an association list from paths to file contents; the first
binding for a path is its current content. -/
abbrev FS : Type := List (String × String)

/-- Read the current content at a path, if a file exists there. -/
def fsRead (fs : FS) (p : String) : Option String :=
  match fs with
  | [] => none
  | e :: rest => if e.1 = p then some e.2 else fsRead rest p

/-- Write content at a path (shadowing any previous binding). -/
def fsWrite (fs : FS) (p : String) (c : String) : FS :=
  (p, c) :: fs

/-! ### Manifest planner (modelled from the spec, section 4.1) -/

/-- The literal opening of a placeholder token. -/
def braceOpen : List Char := "\x7b\x7b".toList

/-- Replace every occurrence of a token by a replacement, scanning left to
right; the fuel argument bounds the number of consumed characters and is
instantiated with the input length. -/
def replaceTokAux (tok repl : List Char) : Nat → List Char → List Char
  | 0, s => s
  | _ + 1, [] => []
  | fuel + 1, c :: rest =>
    if tok ≠ [] ∧ List.take tok.length (c :: rest) = tok then
      repl ++ replaceTokAux tok repl fuel (List.drop (tok.length - 1) rest)
    else
      c :: replaceTokAux tok repl fuel rest

/-- Replace every occurrence of a token by a replacement. -/
def replaceTok (tok repl : List Char) (s : List Char) : List Char :=
  replaceTokAux tok repl s.length s

/-- Whether a character sequence occurs inside another. -/
def containsSeq (pat : List Char) : List Char → Bool
  | [] => pat.isEmpty
  | c :: rest =>
    decide (List.take pat.length (c :: rest) = pat) || containsSeq pat rest

/-- The Resolution Context: inputs that turn placeholders into literal values
(spec section 3) — the resolved agent layout fields, the language code and the
kiro-root directory name. -/
structure ResolutionContext where
  commandsDir : String
  agentDir : String
  docFile : String
  lang : String
  kiroDir : String
deriving DecidableEq, Repr

/-- Modelled from the spec: the closed set of recognized placeholder tokens and
their Resolution Context values (src/manifest/planner.ts is not in the source
tree). -/
def tokenValues (ctx : ResolutionContext) : List (List Char × List Char) :=
  [("\x7b\x7bCOMMANDS_DIR\x7d\x7d".toList, ctx.commandsDir.toList),
   ("\x7b\x7bAGENT_DIR\x7d\x7d".toList, ctx.agentDir.toList),
   ("\x7b\x7bDOC_FILE\x7d\x7d".toList, ctx.docFile.toList),
   ("\x7b\x7bLANG\x7d\x7d".toList, ctx.lang.toList),
   ("\x7b\x7bKIRO_DIR\x7d\x7d".toList, ctx.kiroDir.toList)]

/-- Modelled from the spec: substitute every recognized placeholder token in a
target-path pattern; any placeholder opening left afterwards is an unresolved
or unknown placeholder and a fatal `ManifestError` (fail fast). -/
def substitutePattern (ctx : ResolutionContext) (pattern : List Char) :
    Except String (List Char) :=
  let out := (tokenValues ctx).foldl (fun acc tv => replaceTok tv.1 tv.2 acc) pattern
  if containsSeq braceOpen out then
    Except.error "ManifestError: unresolved or unknown placeholder"
  else
    Except.ok out

/-- One artifact listed in the manifest: a template source reference and a
target-path pattern containing placeholders (spec section 3). -/
structure ArtifactDescriptor where
  source : String
  targetPattern : List Char
deriving DecidableEq, Repr

/-- One Category Entry of the manifest (spec section 3). -/
structure CategoryEntry where
  category : String
  sourceMode : String
  artifacts : List ArtifactDescriptor
deriving DecidableEq, Repr

/-- One artifact of the Processed Plan: resolved source and target paths, its
category and the category's source-mode tag (spec section 3, Processed
Artifact). -/
structure ProcessedArtifact where
  sourcePath : String
  targetPath : String
  category : String
  sourceMode : String
deriving DecidableEq, Repr

/-- Modelled from the spec: resolve the artifacts of one Category Entry in
declaration order, failing fast on the first unresolved placeholder. -/
def substArtifacts (ctx : ResolutionContext) (cat sm : String) :
    List ArtifactDescriptor → Except String (List ProcessedArtifact)
  | [] => Except.ok []
  | a :: rest =>
    match substitutePattern ctx a.targetPattern with
    | Except.error e => Except.error e
    | Except.ok out =>
      match substArtifacts ctx cat sm rest with
      | Except.error e => Except.error e
      | Except.ok tail =>
        Except.ok ({ sourcePath := a.source, targetPath := String.mk out,
                     category := cat, sourceMode := sm } :: tail)

/-- Modelled from the spec: the Manifest Planner over parsed Category Entries —
either a fatal `ManifestError` with no partial plan, or the full Processed Plan
in manifest declaration order. -/
def planManifest (ctx : ResolutionContext) :
    List CategoryEntry → Except String (List ProcessedArtifact)
  | [] => Except.ok []
  | e :: rest =>
    match substArtifacts ctx e.category e.sourceMode e.artifacts with
    | Except.error m => Except.error m
    | Except.ok xs =>
      match planManifest ctx rest with
      | Except.error m => Except.error m
      | Except.ok ys => Except.ok (xs ++ ys)

/-- Modelled from the spec: `planFromFile` — a missing or malformed manifest
file (modelled as a failed parse) is a fatal `ManifestError`, otherwise the
parsed entries are planned. -/
def planFromFile (ctx : ResolutionContext) (manifest : Option (List CategoryEntry)) :
    Except String (List ProcessedArtifact) :=
  match manifest with
  | none => Except.error "ManifestError: manifest file missing or malformed"
  | some entries => planManifest ctx entries

/-- The number of artifact descriptors declared across all categories. -/
def totalArtifacts (entries : List CategoryEntry) : Nat :=
  (entries.map (fun e => e.artifacts.length)).sum

/-- The declared (category, source) pairs in manifest declaration order. -/
def declaredArtifacts (entries : List CategoryEntry) : List (String × String) :=
  (entries.map (fun e => e.artifacts.map (fun a => (e.category, a.source)))).flatten

/-! ### File operations -/

/-- One File Operation per Processed Artifact: classification of the target
path against the current filesystem plus the rendered content
(spec section 3, File Operation). -/
structure FileOperation where
  targetPath : String
  category : String
  sourceMode : String
  existing : Bool
  identical : Bool
  content : String
deriving DecidableEq, Repr

/-- Modelled from the spec: the File Operation Builder
(src/plan/fileOperations.ts is not in the source tree). For one artifact it
renders the content from the template store, checks existence of the target
path (read-only) and compares current bytes against the rendered content to
set the `identical` flag. -/
def buildFileOperation (templates : String → String) (fs : FS)
    (a : ProcessedArtifact) : FileOperation :=
  let rendered := templates a.sourcePath
  match fsRead fs a.targetPath with
  | none =>
      { targetPath := a.targetPath, category := a.category, sourceMode := a.sourceMode,
        existing := false, identical := false, content := rendered }
  | some cur =>
      { targetPath := a.targetPath, category := a.category, sourceMode := a.sourceMode,
        existing := true, identical := decide (cur = rendered), content := rendered }

/-- Modelled from the spec: one File Operation per artifact of the plan, in
plan order. -/
def buildFileOperations (templates : String → String) (fs : FS)
    (plan : List ProcessedArtifact) : List FileOperation :=
  plan.map (buildFileOperation templates fs)

/-! ### Category summaries and policies -/

/-- A File Operation is conflicting when the target exists with differing
content (spec: `existing && !identical`). -/
def isConflicting (op : FileOperation) : Bool :=
  op.existing && !op.identical

/-- Aggregated counts over the File Operations of one category
(spec section 3, Category Summary). -/
structure CategorySummary where
  category : String
  total : Nat
  existing : Nat
  identical : Nat
  conflicting : Nat
deriving DecidableEq, Repr

/-- The summary of one category over a list of File Operations. -/
def summaryFor (ops : List FileOperation) (cat : String) : CategorySummary :=
  let catOps := ops.filter (fun op => decide (op.category = cat))
  { category := cat,
    total := catOps.length,
    existing := (catOps.filter (fun op => op.existing)).length,
    identical := (catOps.filter (fun op => op.existing && op.identical)).length,
    conflicting := (catOps.filter isConflicting).length }

/-- Modelled from the spec: `summarizeCategories` (src/cli/policies.ts is not
in the source tree) — one summary per distinct category of the operations. -/
def summarizeCategories (ops : List FileOperation) : List CategorySummary :=
  ((ops.map (fun op => op.category)).dedup).map (summaryFor ops)

/-- Modelled from the spec: the Category Policy table of section 4.3 — force
maps every category to force, skip to skip, and prompt resolves to skip for a
category with zero conflicting files and to prompt otherwise. -/
def determineCategoryPolicy (ow : OverwritePolicy) (s : CategorySummary) : CategoryPolicy :=
  match ow with
  | OverwritePolicy.force => CategoryPolicy.force
  | OverwritePolicy.skip => CategoryPolicy.skip
  | OverwritePolicy.prompt =>
      if s.conflicting = 0 then CategoryPolicy.skip else CategoryPolicy.prompt

/-- Modelled from the spec: `determineCategoryPolicies` (src/cli/policies.ts
is not in the source tree) — the per-category policy map. -/
def determineCategoryPolicies (ow : OverwritePolicy) (summaries : List CategorySummary) :
    List (String × CategoryPolicy) :=
  summaries.map (fun s => (s.category, determineCategoryPolicy ow s))

/-- Embedding of index.ts lines 167-170: under global force the category policy
map is left empty, otherwise it is computed by `determineCategoryPolicies`. -/
def runCategoryPolicies (ow : OverwritePolicy) (summaries : List CategorySummary) :
    List (String × CategoryPolicy) :=
  match ow with
  | OverwritePolicy.force => []
  | _ => determineCategoryPolicies ow summaries

/-- Modelled from the spec: the Executor falls back to the global overwrite
setting for a category absent from the policy map (src/plan/executor.ts is not
in the source tree); with global force this makes every category
force-overwrite. -/
def fallbackPolicy : OverwritePolicy → CategoryPolicy
  | OverwritePolicy.force => CategoryPolicy.force
  | OverwritePolicy.skip => CategoryPolicy.skip
  | OverwritePolicy.prompt => CategoryPolicy.prompt

/-- The policy the Executor applies to a category for the current run. -/
def resolvePolicy (ow : OverwritePolicy) (policies : List (String × CategoryPolicy))
    (cat : String) : CategoryPolicy :=
  match alookup cat policies with
  | some p => p
  | none => fallbackPolicy ow

/-! ### Conflict handler state machine (index.ts, createConflictHandler, lines 77-119) -/

/-- The mutable state captured by the conflict handler closure: the
per-category count of remaining existing files and the per-category sticky
decisions (index.ts lines 83-86). -/
structure HandlerState where
  remainingExisting : List (String × Nat)
  sticky : List (String × ConflictDecision)
deriving DecidableEq, Repr

/-- One user interaction for one prompted conflict: the decision picked at the
choice prompt and the answer to the apply-to-remaining confirmation. -/
structure UserAnswer where
  decision : ConflictDecision
  applyToRest : Bool
deriving DecidableEq, Repr

/-- The answer used when the scripted answer list is exhausted; corresponds to
accepting the keep-existing default of the prompt. -/
def defaultAnswer : UserAnswer :=
  { decision := ConflictDecision.skip, applyToRest := false }

/-- The list of decisions offered for one conflicting file
(index.ts lines 95-106): base choices are overwrite and keep-existing; for the
project-memory category with a source-mode other than `template-json`,
`append` is spliced in between them. -/
def conflictChoices (info : ConflictInfo) : List ConflictDecision :=
  if info.category = "project-memory" ∧ info.sourceMode ≠ "template-json" then
    [ConflictDecision.overwrite, ConflictDecision.append, ConflictDecision.skip]
  else
    [ConflictDecision.overwrite, ConflictDecision.skip]

/-- Embedding of the conflict handler body (index.ts lines 88-118). A cached
sticky decision for the category is returned with no prompting; otherwise the
remaining-existing counter is decremented, the user is prompted for a choice
(one prompt), and — when more files remain in the category — additionally asked
whether to apply the choice to the rest (a second prompt), which records the
sticky decision. The returned number counts prompts issued, and the unconsumed
scripted answers are threaded through. -/
def handleConflict (st : HandlerState) (info : ConflictInfo) (answers : List UserAnswer) :
    ConflictDecision × HandlerState × Nat × List UserAnswer :=
  match alookup info.category st.sticky with
  | some d => (d, st, 0, answers)
  | none =>
    let remaining := (alookup info.category st.remainingExisting).getD 1
    let st1 : HandlerState :=
      { st with remainingExisting := aset st.remainingExisting info.category (remaining - 1) }
    let ans := answers.headD defaultAnswer
    let rest := answers.tail
    if 1 < remaining then
      if ans.applyToRest then
        (ans.decision, { st1 with sticky := (info.category, ans.decision) :: st1.sticky },
         2, rest)
      else
        (ans.decision, st1, 2, rest)
    else
      (ans.decision, st1, 1, rest)

/-- Embedding of `createConflictHandler` (index.ts lines 77-87): in a
non-interactive context no handler is created; otherwise the handler starts
with the per-category existing counts from the summaries and no sticky
decisions. -/
def createConflictHandler (interactive : Bool) (summaries : List CategorySummary) :
    Option HandlerState :=
  if interactive then
    some { remainingExisting := summaries.map (fun s => (s.category, s.existing)),
           sticky := [] }
  else none

/-- Run the conflict handler over a sequence of conflicts in plan order,
returning for each the decision and the number of prompts issued. -/
def runConflicts : HandlerState → List ConflictInfo → List UserAnswer →
    List (ConflictDecision × Nat)
  | _, [], _ => []
  | st, i :: is, answers =>
    match handleConflict st i answers with
    | (d, st2, n, rest) => (d, n) :: runConflicts st2 is rest

/-! ### Executor (modelled from the spec, section 4.5) -/

/-- Run configuration relevant to execution: the effective overwrite setting,
backup enablement and directory, and an oracle describing which backup copies
fail. -/
structure ExecConfig where
  overwrite : OverwritePolicy
  backupEnabled : Bool
  backupDir : String
  backupFails : String → Bool

/-- Execution state threaded through the Executor: the filesystem, the
written/skipped/errored tallies, the number of prompts issued so far, the
optional conflict-handler state and the remaining scripted answers. -/
structure ExecState where
  fs : FS
  written : Nat
  skipped : Nat
  errored : Nat
  prompts : Nat
  handler : Option HandlerState
  answers : List UserAnswer
deriving DecidableEq, Repr

/-- The ConflictInfo the Executor passes to the handler for one operation. -/
def infoOf (op : FileOperation) : ConflictInfo :=
  { category := op.category, sourceMode := op.sourceMode, relTargetPath := op.targetPath }

/-- Backup location: same relative path under the backup root. -/
def backupPathFor (cfg : ExecConfig) (p : String) : String :=
  cfg.backupDir ++ "/" ++ p

/-- Delimiter inserted between existing and appended content. -/
def appendDelim : String := "\n\n"

/-- Modelled from the spec: overwriting one existing file
(src/plan/executor.ts is not in the source tree). With backups enabled, the
pre-overwrite content is copied to the backup location first; if that copy
fails, the operation is aborted for this file and reported as an error — the
overwrite is not performed and nothing is counted as skipped. -/
def applyOverwrite (cfg : ExecConfig) (st : ExecState) (op : FileOperation) : ExecState :=
  if cfg.backupEnabled then
    if cfg.backupFails op.targetPath then
      { st with errored := st.errored + 1 }
    else
      let fs1 :=
        match fsRead st.fs op.targetPath with
        | some old => fsWrite st.fs (backupPathFor cfg op.targetPath) old
        | none => st.fs
      { st with fs := fsWrite fs1 op.targetPath op.content, written := st.written + 1 }
  else
    { st with fs := fsWrite st.fs op.targetPath op.content, written := st.written + 1 }

/-- Modelled from the spec: applying one Conflict Decision to one conflicting
file — overwrite behaves as force-overwrite, skip leaves the file untouched and
counts as skipped, append writes the rendered content after the existing
content separated by a delimiter and counts as written. -/
def applyDecision (cfg : ExecConfig) (st : ExecState) (op : FileOperation) :
    ConflictDecision → ExecState
  | ConflictDecision.overwrite => applyOverwrite cfg st op
  | ConflictDecision.skip => { st with skipped := st.skipped + 1 }
  | ConflictDecision.append =>
      let old := (fsRead st.fs op.targetPath).getD ""
      { st with fs := fsWrite st.fs op.targetPath (old ++ appendDelim ++ op.content),
                written := st.written + 1 }

/-- Modelled from the spec: the Executor's per-operation state machine
(section 4.5) — write new files; no-op on identical files; on a conflicting
file follow the resolved category policy, degrading prompt to skip when no
conflict handler exists. -/
def execOp (cfg : ExecConfig) (policies : List (String × CategoryPolicy))
    (st : ExecState) (op : FileOperation) : ExecState :=
  if op.existing = false then
    { st with fs := fsWrite st.fs op.targetPath op.content, written := st.written + 1 }
  else if op.identical then st
  else
    match resolvePolicy cfg.overwrite policies op.category with
    | CategoryPolicy.force => applyOverwrite cfg st op
    | CategoryPolicy.skip => { st with skipped := st.skipped + 1 }
    | CategoryPolicy.prompt =>
      match st.handler with
      | none => { st with skipped := st.skipped + 1 }
      | some hs =>
        match handleConflict hs (infoOf op) st.answers with
        | (d, hs2, n, rest) =>
          applyDecision cfg
            { st with handler := some hs2, answers := rest, prompts := st.prompts + n }
            op d

/-- Modelled from the spec: the Executor applies every File Operation
sequentially in plan order. -/
def execProcessedArtifacts (cfg : ExecConfig) (policies : List (String × CategoryPolicy))
    (st0 : ExecState) (ops : List FileOperation) : ExecState :=
  ops.foldl (execOp cfg policies) st0

/-- Writing the rendered content of each operation in order. -/
def writeAll (fs : FS) (ops : List FileOperation) : FS :=
  ops.foldl (fun f op => fsWrite f op.targetPath op.content) fs

/-! ### CLI drivers (index.ts, handleDryRun lines 134-153, runPlanExecution lines 155-194, runCli lines 196-239) -/

/-- Outcome of one CLI run: the exit code, the resulting filesystem, the lines
written to the terminal, whether the Executor was invoked, and the Run Result
counts. -/
structure CliOutcome where
  exitCode : Nat
  fs : FS
  outputs : List String
  executorInvoked : Bool
  written : Nat
  skipped : Nat
deriving DecidableEq, Repr

/-- The warning printed when prompt mode is unavailable
(index.ts line 174). -/
def promptUnavailableWarning : String :=
  "Prompt mode unavailable; existing files will be skipped. Use --yes or --overwrite=force."

/-- Rendering of the category summaries (printSummary; its exact text is
outside the modelled core). -/
def printSummaryLines (summaries : List CategorySummary) : List String :=
  summaries.map (fun s => "Category " ++ s.category)

/-- The completion line with the Run Result counts (index.ts line 186). -/
def successLine (written skipped : Nat) : String :=
  "Setup completed: written=" ++ toString written ++ ", skipped=" ++ toString skipped

/-- Fresh execution state at the start of a run. -/
def initExecState (fs : FS) (handler : Option HandlerState)
    (answers : List UserAnswer) : ExecState :=
  { fs := fs, written := 0, skipped := 0, errored := 0, prompts := 0,
    handler := handler, answers := answers }

/-- Embedding of `runPlanExecution` (index.ts lines 155-194): plan, build
operations, summarize, derive policies, create the conflict handler (warning
when prompt mode is unavailable), execute, and report counts; a planning error
aborts with exit code 1 before any execution. -/
def runPlanExecutionM (templates : String → String) (cfg : ExecConfig)
    (ctx : ResolutionContext) (manifest : Option (List CategoryEntry)) (fs : FS)
    (interactive : Bool) (answers : List UserAnswer) : CliOutcome :=
  match planFromFile ctx manifest with
  | Except.error e =>
      { exitCode := 1, fs := fs, outputs := ["Error: " ++ e], executorInvoked := false,
        written := 0, skipped := 0 }
  | Except.ok plan =>
      let ops := buildFileOperations templates fs plan
      let summaries := summarizeCategories ops
      let policies := runCategoryPolicies cfg.overwrite summaries
      let handler := createConflictHandler interactive summaries
      let warn :=
        if handler = none ∧ cfg.overwrite = OverwritePolicy.prompt then
          [promptUnavailableWarning]
        else []
      let st := execProcessedArtifacts cfg policies (initExecState fs handler answers) ops
      { exitCode := 0, fs := st.fs,
        outputs := printSummaryLines summaries ++ warn ++
          [successLine st.written st.skipped],
        executorInvoked := true, written := st.written, skipped := st.skipped }

/-- Embedding of `handleDryRun` (index.ts lines 134-153): the identical
pipeline through Category Summaries, then only a report — the Executor is never
invoked and the filesystem is left as it was. -/
def handleDryRunM (templates : String → String) (ctx : ResolutionContext)
    (manifest : Option (List CategoryEntry)) (fs : FS) : CliOutcome :=
  match planFromFile ctx manifest with
  | Except.error e =>
      { exitCode := 1, fs := fs, outputs := ["Error: " ++ e], executorInvoked := false,
        written := 0, skipped := 0 }
  | Except.ok plan =>
      let ops := buildFileOperations templates fs plan
      let summaries := summarizeCategories ops
      { exitCode := 0, fs := fs,
        outputs := printSummaryLines summaries ++ ["Artifact details:"] ++
          plan.map (fun pa => pa.targetPath),
        executorInvoked := false, written := 0, skipped := 0 }

/-- Embedding of the dispatch in `runCli` (index.ts lines 234-238): the dry-run
flag selects the report-only path, otherwise the plan is executed. -/
def runCliModel (dryRun : Bool) (templates : String → String) (cfg : ExecConfig)
    (ctx : ResolutionContext) (manifest : Option (List CategoryEntry)) (fs : FS)
    (interactive : Bool) (answers : List UserAnswer) : CliOutcome :=
  if dryRun then handleDryRunM templates ctx manifest fs
  else runPlanExecutionM templates cfg ctx manifest fs interactive answers

/-! ### Agent registry layouts (src/unnamed/part_000, agentDefinitions) -/

/-- Agent identifiers, one per entry of `agentDefinitions`. -/
inductive AgentType
  | claudeCode
  | claudeCodeAgent
  | codex
  | cursor
  | githubCopilot
  | geminiCli
  | windsurf
  | antigravity
  | qwenCode
deriving DecidableEq, Repr

/-- Static layout defaults of one agent definition (`AgentLayoutDefaults`). -/
structure AgentLayoutDefaults where
  commandsDir : String
  globalCommandsDir : Option String
  agentDir : String
  docFile : String
deriving DecidableEq, Repr

/-- The `layout` field of each entry of `agentDefinitions` in the registry. -/
def layoutOf : AgentType → AgentLayoutDefaults
  | AgentType.claudeCode =>
      { commandsDir := ".claude/commands/kiro", globalCommandsDir := some "~/.claude/commands",
        agentDir := ".claude", docFile := "CLAUDE.md" }
  | AgentType.claudeCodeAgent =>
      { commandsDir := ".claude/commands/kiro", globalCommandsDir := some "~/.claude/commands",
        agentDir := ".claude", docFile := "CLAUDE.md" }
  | AgentType.codex =>
      { commandsDir := ".codex/prompts", globalCommandsDir := some "~/.codex/prompts",
        agentDir := ".codex", docFile := "AGENTS.md" }
  | AgentType.cursor =>
      { commandsDir := ".cursor/commands/kiro", globalCommandsDir := some "~/.cursor/commands",
        agentDir := ".cursor", docFile := "AGENTS.md" }
  | AgentType.githubCopilot =>
      { commandsDir := ".github/prompts", globalCommandsDir := none,
        agentDir := ".github", docFile := "AGENTS.md" }
  | AgentType.geminiCli =>
      { commandsDir := ".gemini/commands/kiro", globalCommandsDir := some "~/.gemini/commands",
        agentDir := ".gemini", docFile := "GEMINI.md" }
  | AgentType.windsurf =>
      { commandsDir := ".windsurf/workflows", globalCommandsDir := none,
        agentDir := ".windsurf", docFile := "AGENTS.md" }
  | AgentType.antigravity =>
      { commandsDir := ".agent/workflows", globalCommandsDir := some "~/.gemini/antigravity/global_workflows",
        agentDir := ".agent", docFile := "AGENTS.md" }
  | AgentType.qwenCode =>
      { commandsDir := ".qwen/commands/kiro", globalCommandsDir := some "~/.qwen/commands",
        agentDir := ".qwen", docFile := "QWEN.md" }

/-- Resolved layout handed to the planner (`AgentLayout` in agentLayout.ts). -/
structure AgentLayout where
  commandsDir : String
  agentDir : String
  docFile : String
deriving DecidableEq, Repr

/-- A per-agent layout override from user configuration
(`Partial<AgentLayout>` in agentLayout.ts). -/
structure LayoutOverride where
  commandsDir : Option String
  agentDir : Option String
  docFile : Option String
deriving DecidableEq, Repr

/-- Tilde expansion used for global install directories: a leading `~/` is
replaced by the user home directory joined with a path separator
(agentLayout.ts lines 32-36). -/
def expandHome (home : String) (dir : String) : String :=
  if dir.take 2 = "~/" then home ++ "/" ++ dir.drop 2 else dir

/-- Embedding of `resolveAgentLayout` (agentLayout.ts lines 19-40): merge the
base layout with the per-agent override; under the global flag, require a
`globalCommandsDir` in the base definition (error otherwise) and replace only
the `commandsDir` field with its expansion. -/
def resolveAgentLayout (agent : AgentType) (override : LayoutOverride)
    (globalFlag : Bool) (home : String) : Except String AgentLayout :=
  let base := layoutOf agent
  let merged : AgentLayout :=
    { commandsDir := override.commandsDir.getD base.commandsDir,
      agentDir := override.agentDir.getD base.agentDir,
      docFile := override.docFile.getD base.docFile }
  if globalFlag then
    match base.globalCommandsDir with
    | none => Except.error "Agent does not support global installation."
    | some g => Except.ok { merged with commandsDir := expandHome home g }
  else
    Except.ok merged

/-! ## Theorems -/

theorem alookup_aset_self {β : Type} (m : List (String × β)) (cat : String) (v : β) :
    alookup cat (aset m cat v) = some v := by
  simp [aset, alookup]

theorem alookup_cons_self {β : Type} (m : List (String × β)) (cat : String) (v : β) :
    alookup cat ((cat, v) :: m) = some v := by
  simp [alookup]

theorem alookup_map_self {β : Type} (l : List String) (h : String → β) (c : String)
    (hc : c ∈ l) : alookup c (l.map (fun x => (x, h x))) = some (h c) := by
  induction l with
  | nil => cases hc
  | cons a rest ih =>
    rcases eq_or_ne a c with hac | hac
    · subst hac
      simp [alookup]
    · have hcr : c ∈ rest := by
        cases hc with
        | head => exact absurd rfl hac
        | tail _ htl => exact htl
      simpa [alookup, hac] using ih hcr

theorem alookup_mem {β : Type} (l : List (String × β)) (c : String) (v : β)
    (h : alookup c l = some v) : (c, v) ∈ l := by
  induction l with
  | nil => simp [alookup] at h
  | cons e rest ih =>
    obtain ⟨k, w⟩ := e
    by_cases he : k = c
    · simp [alookup, he] at h
      subst he
      subst h
      exact List.mem_cons_self _ _
    · simp [alookup, he] at h
      exact List.mem_cons_of_mem _ (ih h)

theorem fsRead_write_self (fs : FS) (p c : String) :
    fsRead (fsWrite fs p c) p = some c := by
  simp [fsRead, fsWrite]

theorem fsRead_write_ne (fs : FS) (p q c : String) (h : p ≠ q) :
    fsRead (fsWrite fs p c) q = fsRead fs q := by
  simp [fsRead, fsWrite, h]

theorem summaryFor_category (ops : List FileOperation) (cat : String) :
    (summaryFor ops cat).category = cat := rfl

theorem alookup_summaries_map {β : Type} (ops : List FileOperation)
    (g : CategorySummary → β) (s : CategorySummary)
    (hs : s ∈ summarizeCategories ops) :
    alookup s.category ((summarizeCategories ops).map (fun t => (t.category, g t))) =
      some (g s) := by
  obtain ⟨c, hc, hcs⟩ := List.mem_map.1 hs
  subst hcs
  have hcomp :
      (summarizeCategories ops).map (fun t => (t.category, g t)) =
        ((ops.map (fun op => op.category)).dedup).map
          (fun c => (c, g (summaryFor ops c))) := by
    rw [summarizeCategories, List.map_map]
    rfl
  rw [hcomp]
  exact alookup_map_self _ _ _ hc

/-- C1: the resolved per-category policy follows the spec's table — global
force resolves every category to force, global skip to skip, and global prompt
resolves a category with zero conflicting files to skip and a category with at
least one conflicting file to prompt. -/
theorem categoryPolicy_table (ow : OverwritePolicy) (ops : List FileOperation)
    (s : CategorySummary) (hs : s ∈ summarizeCategories ops) :
    resolvePolicy ow (runCategoryPolicies ow (summarizeCategories ops)) s.category =
      (match ow with
       | OverwritePolicy.force => CategoryPolicy.force
       | OverwritePolicy.skip => CategoryPolicy.skip
       | OverwritePolicy.prompt =>
           if s.conflicting = 0 then CategoryPolicy.skip else CategoryPolicy.prompt) := by
  cases ow with
  | force => rfl
  | skip =>
    have h := alookup_summaries_map ops (determineCategoryPolicy OverwritePolicy.skip) s hs
    simp [resolvePolicy, runCategoryPolicies, determineCategoryPolicies] at h ⊢
    rw [h]
    rfl
  | prompt =>
    have h := alookup_summaries_map ops (determineCategoryPolicy OverwritePolicy.prompt) s hs
    simp [resolvePolicy, runCategoryPolicies, determineCategoryPolicies] at h ⊢
    rw [h]
    rfl

/-- C1 witness: a single-operation run with one conflicting file in category
`commands`, under global prompt, resolves that category to prompt. -/
theorem categoryPolicy_table_witness :
    ({ category := "commands", total := 1, existing := 1, identical := 0,
       conflicting := 1 } : CategorySummary) ∈
        summarizeCategories
          [{ targetPath := "a.md", category := "commands", sourceMode := "template",
             existing := true, identical := false, content := "new" }] ∧
      resolvePolicy OverwritePolicy.prompt
          (runCategoryPolicies OverwritePolicy.prompt
            (summarizeCategories
              [{ targetPath := "a.md", category := "commands", sourceMode := "template",
                 existing := true, identical := false, content := "new" }]))
          ({ category := "commands", total := 1, existing := 1, identical := 0,
             conflicting := 1 } : CategorySummary).category =
        (match OverwritePolicy.prompt with
         | OverwritePolicy.force => CategoryPolicy.force
         | OverwritePolicy.skip => CategoryPolicy.skip
         | OverwritePolicy.prompt =>
             if ({ category := "commands", total := 1, existing := 1, identical := 0,
                   conflicting := 1 } : CategorySummary).conflicting = 0 then
               CategoryPolicy.skip
             else CategoryPolicy.prompt) :=
  ⟨by decide, categoryPolicy_table OverwritePolicy.prompt _ _ (by decide)⟩

theorem handleConflict_cached (hs : HandlerState) (info : ConflictInfo)
    (answers : List UserAnswer) (d : ConflictDecision)
    (h : alookup info.category hs.sticky = some d) :
    handleConflict hs info answers = (d, hs, 0, answers) := by
  simp [handleConflict, h]

theorem handleConflict_first_sticky (hs : HandlerState) (info : ConflictInfo)
    (a : UserAnswer) (answers : List UserAnswer)
    (hnone : alookup info.category hs.sticky = none)
    (hrem : 2 ≤ (alookup info.category hs.remainingExisting).getD 1)
    (happ : a.applyToRest = true) :
    handleConflict hs info (a :: answers) =
      (a.decision,
       { remainingExisting :=
           aset hs.remainingExisting info.category
             (((alookup info.category hs.remainingExisting).getD 1) - 1),
         sticky := (info.category, a.decision) :: hs.sticky },
       2, answers) := by
  have h1 : 1 < (alookup info.category hs.remainingExisting).getD 1 := hrem
  simp [handleConflict, hnone, h1, happ]

theorem runConflicts_sticky (c : String) (d : ConflictDecision) :
    ∀ (infos : List ConflictInfo) (st : HandlerState) (answers : List UserAnswer),
      alookup c st.sticky = some d →
      (∀ i ∈ infos, i.category = c) →
      runConflicts st infos answers = infos.map (fun _ => (d, 0)) := by
  intro infos
  induction infos with
  | nil => intro st answers _ _; rfl
  | cons i is ih =>
    intro st answers hst hcat
    have hi : i.category = c := hcat i (List.mem_cons_self _ _)
    have hcache : handleConflict st i answers = (d, st, 0, answers) :=
      handleConflict_cached st i answers d (by rw [hi]; exact hst)
    have hcons : runConflicts st (i :: is) answers = (d, 0) :: runConflicts st is answers := by
      rw [runConflicts, hcache]
    rw [hcons, ih st answers hst (fun j hj => hcat j (List.mem_cons_of_mem _ hj)),
      List.map_cons]

theorem execOp_sticky_overwrite (cfg : ExecConfig)
    (policies : List (String × CategoryPolicy)) (st : ExecState)
    (op : FileOperation) (hs : HandlerState)
    (hnb : cfg.backupEnabled = false)
    (hh : st.handler = some hs)
    (hst : alookup op.category hs.sticky = some ConflictDecision.overwrite)
    (hex : op.existing = true) (hid : op.identical = false)
    (hpol : resolvePolicy cfg.overwrite policies op.category = CategoryPolicy.prompt) :
    execOp cfg policies st op =
      { st with fs := fsWrite st.fs op.targetPath op.content,
                written := st.written + 1 } := by
  have hcache :=
    handleConflict_cached hs (infoOf op) st.answers ConflictDecision.overwrite hst
  simp [execOp, hex, hid, hpol, hh, hcache, applyDecision, applyOverwrite, hnb]

theorem execOp_first_sticky (cfg : ExecConfig)
    (policies : List (String × CategoryPolicy)) (st : ExecState)
    (op : FileOperation) (hs : HandlerState) (a : UserAnswer)
    (answers : List UserAnswer)
    (hnb : cfg.backupEnabled = false)
    (hh : st.handler = some hs) (hans : st.answers = a :: answers)
    (hex : op.existing = true) (hid : op.identical = false)
    (hpol : resolvePolicy cfg.overwrite policies op.category = CategoryPolicy.prompt)
    (hsticky : alookup op.category hs.sticky = none)
    (hrem : 2 ≤ (alookup op.category hs.remainingExisting).getD 1)
    (happ : a.applyToRest = true)
    (hdec : a.decision = ConflictDecision.overwrite) :
    execOp cfg policies st op =
      { st with fs := fsWrite st.fs op.targetPath op.content,
                written := st.written + 1,
                prompts := st.prompts + 2,
                handler := some
                  { remainingExisting :=
                      aset hs.remainingExisting op.category
                        (((alookup op.category hs.remainingExisting).getD 1) - 1),
                    sticky := (op.category, ConflictDecision.overwrite) :: hs.sticky },
                answers := answers } := by
  have hfirst := handleConflict_first_sticky hs (infoOf op) a answers hsticky hrem happ
  rw [hdec] at hfirst
  simp only [infoOf] at hfirst
  simp [execOp, hex, hid, hpol, hh, hans, hfirst, applyDecision, applyOverwrite, hnb, infoOf]

theorem exec_fold_sticky_overwrite (cfg : ExecConfig)
    (policies : List (String × CategoryPolicy)) (c : String)
    (hnb : cfg.backupEnabled = false)
    (hpol : resolvePolicy cfg.overwrite policies c = CategoryPolicy.prompt) :
    ∀ (ops : List FileOperation) (st : ExecState) (hs : HandlerState),
      st.handler = some hs →
      alookup c hs.sticky = some ConflictDecision.overwrite →
      (∀ op ∈ ops, op.category = c ∧ op.existing = true ∧ op.identical = false) →
      execProcessedArtifacts cfg policies st ops =
        { st with fs := writeAll st.fs ops, written := st.written + ops.length } := by
  intro ops
  induction ops with
  | nil =>
    intro st hs _ _ _
    simp [execProcessedArtifacts, writeAll]
  | cons op rest ih =>
    intro st hs hh hst hops
    have hop := hops op (List.mem_cons_self _ _)
    have hstep := execOp_sticky_overwrite cfg policies st op hs hnb hh
      (by rw [hop.1]; exact hst) hop.2.1 hop.2.2
      (by rw [hop.1]; exact hpol)
    have h2 := ih
      { st with fs := fsWrite st.fs op.targetPath op.content, written := st.written + 1 }
      hs (by simp [hh]) hst (fun o ho => hops o (List.mem_cons_of_mem _ ho))
    show execProcessedArtifacts cfg policies (execOp cfg policies st op) rest = _
    rw [hstep, h2]
    simp [writeAll]
    omega

theorem fsRead_writeAll_not_mem (p : String) :
    ∀ (ops : List FileOperation) (fs : FS),
      (∀ op ∈ ops, op.targetPath ≠ p) →
      fsRead (writeAll fs ops) p = fsRead fs p := by
  intro ops
  induction ops with
  | nil => intro fs _; rfl
  | cons o rest ih =>
    intro fs h
    have hne : o.targetPath ≠ p := h o (List.mem_cons_self _ _)
    show fsRead (writeAll (fsWrite fs o.targetPath o.content) rest) p = fsRead fs p
    rw [ih _ (fun op hop => h op (List.mem_cons_of_mem _ hop))]
    exact fsRead_write_ne fs o.targetPath p o.content hne

theorem fsRead_writeAll_mem :
    ∀ (ops : List FileOperation) (fs : FS),
      ((ops.map (fun op => op.targetPath)).Nodup) →
      ∀ op ∈ ops, fsRead (writeAll fs ops) op.targetPath = some op.content := by
  intro ops
  induction ops with
  | nil => intro fs _ op hop; cases hop
  | cons o rest ih =>
    intro fs hnd op hop
    have hnd2 :
        o.targetPath ∉ rest.map (fun op => op.targetPath) ∧
          (rest.map (fun op => op.targetPath)).Nodup := by
      rw [List.map_cons, List.nodup_cons] at hnd
      exact hnd
    cases hop with
    | head =>
      show fsRead (writeAll (fsWrite fs o.targetPath o.content) rest) o.targetPath = _
      rw [fsRead_writeAll_not_mem o.targetPath rest _ ?hne]
      · exact fsRead_write_self fs o.targetPath o.content
      · intro op' hop' heq
        exact hnd2.1 (heq ▸ List.mem_map_of_mem (fun x => x.targetPath) hop')
    | tail _ htl =>
      exact ih (fsWrite fs o.targetPath o.content) hnd2.2 op htl

/-- C2: once the user answers the first prompt of a prompt-policy category and
opts to apply the choice to all remaining files, the conflict handler issues no
further prompts for that category and returns the first decision for every
subsequent conflict; with the first decision being overwrite, the Executor
overwrites every conflicting file of the category, counting them all as
written, with exactly the two prompts of the first file. -/
theorem sticky_decision_applies_to_rest (cfg : ExecConfig)
    (policies : List (String × CategoryPolicy)) (c : String)
    (op0 : FileOperation) (rest : List FileOperation)
    (hs0 : HandlerState) (a : UserAnswer) (answers : List UserAnswer) (st0 : ExecState)
    (hnb : cfg.backupEnabled = false)
    (hpol : resolvePolicy cfg.overwrite policies c = CategoryPolicy.prompt)
    (hops : ∀ op ∈ op0 :: rest, op.category = c ∧ op.existing = true ∧ op.identical = false)
    (hh : st0.handler = some hs0)
    (hans : st0.answers = a :: answers)
    (hsticky : alookup c hs0.sticky = none)
    (hrem : 2 ≤ (alookup c hs0.remainingExisting).getD 1)
    (happ : a.applyToRest = true)
    (hdec : a.decision = ConflictDecision.overwrite) :
    runConflicts hs0 ((op0 :: rest).map infoOf) (a :: answers) =
        (a.decision, 2) :: rest.map (fun _ => (a.decision, 0)) ∧
      (execProcessedArtifacts cfg policies st0 (op0 :: rest)).prompts = st0.prompts + 2 ∧
      (execProcessedArtifacts cfg policies st0 (op0 :: rest)).written =
        st0.written + (op0 :: rest).length ∧
      (execProcessedArtifacts cfg policies st0 (op0 :: rest)).skipped = st0.skipped ∧
      (((op0 :: rest).map (fun op => op.targetPath)).Nodup →
        ∀ op ∈ op0 :: rest,
          fsRead (execProcessedArtifacts cfg policies st0 (op0 :: rest)).fs op.targetPath =
            some op.content) := by
  have hop0 := hops op0 (List.mem_cons_self _ _)
  have hc0 : (infoOf op0).category = c := hop0.1
  -- the handler state recorded after the first, sticky-setting prompt
  have hfirst := handleConflict_first_sticky hs0 (infoOf op0) a answers
    (by rw [hc0]; exact hsticky) (by rw [hc0]; exact hrem) happ
  have hs1sticky :
      alookup c
        ({ remainingExisting :=
             aset hs0.remainingExisting (infoOf op0).category
               (((alookup (infoOf op0).category hs0.remainingExisting).getD 1) - 1),
           sticky := ((infoOf op0).category, a.decision) :: hs0.sticky } :
           HandlerState).sticky = some a.decision := by
    rw [hc0]
    exact alookup_cons_self _ _ _
  constructor
  · -- the conflict handler returns the first decision with no further prompts
    simp only [List.map_cons, runConflicts, hfirst]
    have htail := runConflicts_sticky c a.decision (rest.map infoOf) _ answers
      hs1sticky (by intro i hi; obtain ⟨op, hop, rfl⟩ := List.mem_map.1 hi
                    exact (hops op (List.mem_cons_of_mem _ hop)).1)
    rw [htail, List.map_map]
    rfl
  · -- the Executor overwrites every file with exactly the first file's prompts
    have hstep := execOp_first_sticky cfg policies st0 op0 hs0 a answers hnb hh hans
      hop0.2.1 hop0.2.2 (by rw [hop0.1]; exact hpol)
      (by rw [hop0.1]; exact hsticky) (by rw [hop0.1]; exact hrem) happ hdec
    have hfold := exec_fold_sticky_overwrite cfg policies c hnb hpol rest
      { st0 with fs := fsWrite st0.fs op0.targetPath op0.content,
                 written := st0.written + 1,
                 prompts := st0.prompts + 2,
                 handler := some
                   { remainingExisting :=
                       aset hs0.remainingExisting op0.category
                         (((alookup op0.category hs0.remainingExisting).getD 1) - 1),
                     sticky := (op0.category, ConflictDecision.overwrite) :: hs0.sticky },
                 answers := answers }
      { remainingExisting :=
          aset hs0.remainingExisting op0.category
            (((alookup op0.category hs0.remainingExisting).getD 1) - 1),
        sticky := (op0.category, ConflictDecision.overwrite) :: hs0.sticky }
      rfl (by rw [hop0.1]; exact alookup_cons_self _ _ _)
      (fun o ho => hops o (List.mem_cons_of_mem _ ho))
    have hall :
        execProcessedArtifacts cfg policies st0 (op0 :: rest) =
          { st0 with fs := writeAll st0.fs (op0 :: rest),
                     written := st0.written + (rest.length + 1),
                     prompts := st0.prompts + 2,
                     handler := some
                       { remainingExisting :=
                           aset hs0.remainingExisting op0.category
                             (((alookup op0.category hs0.remainingExisting).getD 1) - 1),
                         sticky := (op0.category, ConflictDecision.overwrite) :: hs0.sticky },
                     answers := answers } := by
      show execProcessedArtifacts cfg policies (execOp cfg policies st0 op0) rest = _
      rw [hstep, hfold]
      simp [writeAll]
      omega
    refine ⟨by rw [hall], by rw [hall]; simp, by rw [hall], ?_⟩
    intro hnd op hop
    rw [hall]
    exact fsRead_writeAll_mem (op0 :: rest) st0.fs hnd op hop

/-- C2 witness: three conflicting files in one category, answering
overwrite-and-apply-to-rest on the first — the handler returns overwrite for
all three with prompts only on the first file, and all three files end up
overwritten. -/
theorem sticky_decision_applies_to_rest_witness :
    runConflicts { remainingExisting := [("commands", 3)], sticky := [] }
        ([{ targetPath := "a", category := "commands", sourceMode := "template",
            existing := true, identical := false, content := "na" },
          { targetPath := "b", category := "commands", sourceMode := "template",
            existing := true, identical := false, content := "nb" },
          { targetPath := "c", category := "commands", sourceMode := "template",
            existing := true, identical := false, content := "nc" }].map infoOf)
        [{ decision := ConflictDecision.overwrite, applyToRest := true }] =
      [(ConflictDecision.overwrite, 2), (ConflictDecision.overwrite, 0),
       (ConflictDecision.overwrite, 0)] ∧
    (execProcessedArtifacts
        { overwrite := OverwritePolicy.prompt, backupEnabled := false,
          backupDir := "", backupFails := fun _ => false }
        [("commands", CategoryPolicy.prompt)]
        { fs := [("a", "oa"), ("b", "ob"), ("c", "oc")], written := 0, skipped := 0,
          errored := 0, prompts := 0,
          handler := some { remainingExisting := [("commands", 3)], sticky := [] },
          answers := [{ decision := ConflictDecision.overwrite, applyToRest := true }] }
        [{ targetPath := "a", category := "commands", sourceMode := "template",
           existing := true, identical := false, content := "na" },
         { targetPath := "b", category := "commands", sourceMode := "template",
           existing := true, identical := false, content := "nb" },
         { targetPath := "c", category := "commands", sourceMode := "template",
           existing := true, identical := false, content := "nc" }]).prompts = 2 ∧
    (execProcessedArtifacts
        { overwrite := OverwritePolicy.prompt, backupEnabled := false,
          backupDir := "", backupFails := fun _ => false }
        [("commands", CategoryPolicy.prompt)]
        { fs := [("a", "oa"), ("b", "ob"), ("c", "oc")], written := 0, skipped := 0,
          errored := 0, prompts := 0,
          handler := some { remainingExisting := [("commands", 3)], sticky := [] },
          answers := [{ decision := ConflictDecision.overwrite, applyToRest := true }] }
        [{ targetPath := "a", category := "commands", sourceMode := "template",
           existing := true, identical := false, content := "na" },
         { targetPath := "b", category := "commands", sourceMode := "template",
           existing := true, identical := false, content := "nb" },
         { targetPath := "c", category := "commands", sourceMode := "template",
           existing := true, identical := false, content := "nc" }]).written = 3 := by
  have h := sticky_decision_applies_to_rest
    { overwrite := OverwritePolicy.prompt, backupEnabled := false,
      backupDir := "", backupFails := fun _ => false }
    [("commands", CategoryPolicy.prompt)] "commands"
    { targetPath := "a", category := "commands", sourceMode := "template",
      existing := true, identical := false, content := "na" }
    [{ targetPath := "b", category := "commands", sourceMode := "template",
       existing := true, identical := false, content := "nb" },
     { targetPath := "c", category := "commands", sourceMode := "template",
       existing := true, identical := false, content := "nc" }]
    { remainingExisting := [("commands", 3)], sticky := [] }
    { decision := ConflictDecision.overwrite, applyToRest := true } []
    { fs := [("a", "oa"), ("b", "ob"), ("c", "oc")], written := 0, skipped := 0,
      errored := 0, prompts := 0,
      handler := some { remainingExisting := [("commands", 3)], sticky := [] },
      answers := [{ decision := ConflictDecision.overwrite, applyToRest := true }] }
    rfl rfl (by decide) rfl rfl rfl (by decide) rfl rfl
  exact ⟨h.1, h.2.1, h.2.2.1⟩

/-- C7: a File Operation's `identical` flag is true if and only if a file
currently exists at the target path with content byte-equal to the rendered
content; `identical` is false whenever `existing` is false; and the Executor
does not rewrite an identical file. -/
theorem identical_flag_spec (templates : String → String) (fs : FS)
    (a : ProcessedArtifact) :
    ((buildFileOperation templates fs a).identical = true ↔
        fsRead fs a.targetPath = some (templates a.sourcePath)) ∧
    ((buildFileOperation templates fs a).existing = false →
        (buildFileOperation templates fs a).identical = false) ∧
    ((buildFileOperation templates fs a).identical = true →
        ∀ (cfg : ExecConfig) (policies : List (String × CategoryPolicy)) (st : ExecState),
          execOp cfg policies st (buildFileOperation templates fs a) = st) := by
  cases h : fsRead fs a.targetPath with
  | none =>
    refine ⟨?_, ?_, ?_⟩
    · simp [buildFileOperation, h]
    · simp [buildFileOperation, h]
    · simp [buildFileOperation, h]
  | some cur =>
    refine ⟨?_, ?_, ?_⟩
    · simp [buildFileOperation, h]
    · simp [buildFileOperation, h]
    · intro hid cfg policies st
      have hcur : (buildFileOperation templates fs a).identical = true := hid
      simp [buildFileOperation, h] at hcur
      simp [execOp, buildFileOperation, h, hcur]

/-- C7 witness: a file whose current content equals the rendered content is
classified identical, and the Executor leaves the state unchanged on it. -/
theorem identical_flag_spec_witness :
    (buildFileOperation (fun _ => "body") [("t.md", "body")]
        { sourcePath := "s", targetPath := "t.md", category := "commands",
          sourceMode := "template" }).identical = true ∧
    execOp
        { overwrite := OverwritePolicy.prompt, backupEnabled := false,
          backupDir := "", backupFails := fun _ => false } []
        { fs := [("t.md", "body")], written := 0, skipped := 0, errored := 0,
          prompts := 0, handler := none, answers := [] }
        (buildFileOperation (fun _ => "body") [("t.md", "body")]
          { sourcePath := "s", targetPath := "t.md", category := "commands",
            sourceMode := "template" }) =
      { fs := [("t.md", "body")], written := 0, skipped := 0, errored := 0,
        prompts := 0, handler := none, answers := [] } := by
  have h := identical_flag_spec (fun _ => "body") [("t.md", "body")]
    { sourcePath := "s", targetPath := "t.md", category := "commands",
      sourceMode := "template" }
  have hid := h.1.mpr (by decide)
  exact ⟨hid, h.2.2 hid
    { overwrite := OverwritePolicy.prompt, backupEnabled := false,
      backupDir := "", backupFails := fun _ => false } []
    { fs := [("t.md", "body")], written := 0, skipped := 0, errored := 0,
      prompts := 0, handler := none, answers := [] }⟩

/-- C4: with the dry-run flag set the pipeline still runs through Plan, File
Operations and Category Summaries, but the Executor is never invoked, no file
is created or modified — the filesystem after the run is the one before — and
only the report lines are emitted. -/
theorem dry_run_no_mutation (templates : String → String) (cfg : ExecConfig)
    (ctx : ResolutionContext) (manifest : Option (List CategoryEntry)) (fs : FS)
    (interactive : Bool) (answers : List UserAnswer) :
    (runCliModel true templates cfg ctx manifest fs interactive answers).fs = fs ∧
    (runCliModel true templates cfg ctx manifest fs interactive answers).executorInvoked =
      false ∧
    (∀ plan, planFromFile ctx manifest = Except.ok plan →
      (runCliModel true templates cfg ctx manifest fs interactive answers).outputs =
        printSummaryLines (summarizeCategories (buildFileOperations templates fs plan)) ++
          ["Artifact details:"] ++ plan.map (fun pa => pa.targetPath)) := by
  unfold runCliModel handleDryRunM
  cases h : planFromFile ctx manifest <;> simp [h]

/-- C4 witness: a dry run over a directory with a conflicting file leaves the
filesystem unchanged and never invokes the Executor. -/
theorem dry_run_no_mutation_witness :
    (runCliModel true (fun _ => "new")
        { overwrite := OverwritePolicy.prompt, backupEnabled := false, backupDir := "",
          backupFails := fun _ => false }
        { commandsDir := "cmd", agentDir := ".agent", docFile := "DOC.md", lang := "en",
          kiroDir := ".kiro" }
        (some [{ category := "commands", sourceMode := "template",
                 artifacts := [{ source := "tpl/a.md", targetPattern := "cmd/a.md".toList }] }])
        [("cmd/a.md", "old")] true []).fs = [("cmd/a.md", "old")] ∧
    (runCliModel true (fun _ => "new")
        { overwrite := OverwritePolicy.prompt, backupEnabled := false, backupDir := "",
          backupFails := fun _ => false }
        { commandsDir := "cmd", agentDir := ".agent", docFile := "DOC.md", lang := "en",
          kiroDir := ".kiro" }
        (some [{ category := "commands", sourceMode := "template",
                 artifacts := [{ source := "tpl/a.md", targetPattern := "cmd/a.md".toList }] }])
        [("cmd/a.md", "old")] true []).executorInvoked = false :=
  ⟨(dry_run_no_mutation (fun _ => "new")
      { overwrite := OverwritePolicy.prompt, backupEnabled := false, backupDir := "",
        backupFails := fun _ => false }
      { commandsDir := "cmd", agentDir := ".agent", docFile := "DOC.md", lang := "en",
        kiroDir := ".kiro" }
      (some [{ category := "commands", sourceMode := "template",
               artifacts := [{ source := "tpl/a.md", targetPattern := "cmd/a.md".toList }] }])
      [("cmd/a.md", "old")] true []).1,
   (dry_run_no_mutation (fun _ => "new")
      { overwrite := OverwritePolicy.prompt, backupEnabled := false, backupDir := "",
        backupFails := fun _ => false }
      { commandsDir := "cmd", agentDir := ".agent", docFile := "DOC.md", lang := "en",
        kiroDir := ".kiro" }
      (some [{ category := "commands", sourceMode := "template",
               artifacts := [{ source := "tpl/a.md", targetPattern := "cmd/a.md".toList }] }])
      [("cmd/a.md", "old")] true []).2.1⟩

/-- C5: with backups enabled, a successful overwrite first copies the
pre-overwrite content byte-for-byte to the backup location and then writes the
new content; if the backup copy fails, the overwrite is not performed — the
filesystem is unchanged — and the failure is counted as an error for that file,
not as a skip. -/
theorem backup_before_overwrite (cfg : ExecConfig) (st : ExecState) (op : FileOperation)
    (old : String)
    (hb : cfg.backupEnabled = true)
    (hread : fsRead st.fs op.targetPath = some old)
    (hne : backupPathFor cfg op.targetPath ≠ op.targetPath) :
    (cfg.backupFails op.targetPath = false →
      fsRead (applyOverwrite cfg st op).fs (backupPathFor cfg op.targetPath) = some old ∧
      fsRead (applyOverwrite cfg st op).fs op.targetPath = some op.content ∧
      (applyOverwrite cfg st op).written = st.written + 1) ∧
    (cfg.backupFails op.targetPath = true →
      (applyOverwrite cfg st op).fs = st.fs ∧
      (applyOverwrite cfg st op).errored = st.errored + 1 ∧
      (applyOverwrite cfg st op).skipped = st.skipped ∧
      (applyOverwrite cfg st op).written = st.written) := by
  constructor
  · intro hf
    have hgoal : (applyOverwrite cfg st op).fs =
        fsWrite (fsWrite st.fs (backupPathFor cfg op.targetPath) old)
          op.targetPath op.content := by
      simp [applyOverwrite, hb, hf, hread]
    refine ⟨?_, ?_, ?_⟩
    · rw [hgoal, fsRead_write_ne _ _ _ _ (Ne.symm hne)]
      exact fsRead_write_self _ _ _
    · rw [hgoal]
      exact fsRead_write_self _ _ _
    · simp [applyOverwrite, hb, hf, hread]
  · intro hf
    refine ⟨?_, ?_, ?_, ?_⟩ <;> simp [applyOverwrite, hb, hf]

/-- C5 witness: backing up a differing file before a forced overwrite preserves
its old content at the backup path, and a failing backup aborts the overwrite
with an error. -/
theorem backup_before_overwrite_witness :
    (fsRead (applyOverwrite
        { overwrite := OverwritePolicy.force, backupEnabled := true,
          backupDir := ".cc-sdd.backup", backupFails := fun _ => false }
        { fs := [("t.md", "old")], written := 0, skipped := 0, errored := 0, prompts := 0,
          handler := none, answers := [] }
        { targetPath := "t.md", category := "commands", sourceMode := "template",
          existing := true, identical := false, content := "new" }).fs
      ".cc-sdd.backup/t.md" = some "old") ∧
    (fsRead (applyOverwrite
        { overwrite := OverwritePolicy.force, backupEnabled := true,
          backupDir := ".cc-sdd.backup", backupFails := fun _ => false }
        { fs := [("t.md", "old")], written := 0, skipped := 0, errored := 0, prompts := 0,
          handler := none, answers := [] }
        { targetPath := "t.md", category := "commands", sourceMode := "template",
          existing := true, identical := false, content := "new" }).fs
      "t.md" = some "new") ∧
    ((applyOverwrite
        { overwrite := OverwritePolicy.force, backupEnabled := true,
          backupDir := ".cc-sdd.backup", backupFails := fun _ => true }
        { fs := [("t.md", "old")], written := 0, skipped := 0, errored := 0, prompts := 0,
          handler := none, answers := [] }
        { targetPath := "t.md", category := "commands", sourceMode := "template",
          existing := true, identical := false, content := "new" }).fs =
      [("t.md", "old")]) := by
  have hok := backup_before_overwrite
    { overwrite := OverwritePolicy.force, backupEnabled := true,
      backupDir := ".cc-sdd.backup", backupFails := fun _ => false }
    { fs := [("t.md", "old")], written := 0, skipped := 0, errored := 0, prompts := 0,
      handler := none, answers := [] }
    { targetPath := "t.md", category := "commands", sourceMode := "template",
      existing := true, identical := false, content := "new" }
    "old" rfl (by decide) (by decide)
  have hfail := backup_before_overwrite
    { overwrite := OverwritePolicy.force, backupEnabled := true,
      backupDir := ".cc-sdd.backup", backupFails := fun _ => true }
    { fs := [("t.md", "old")], written := 0, skipped := 0, errored := 0, prompts := 0,
      handler := none, answers := [] }
    { targetPath := "t.md", category := "commands", sourceMode := "template",
      existing := true, identical := false, content := "new" }
    "old" rfl (by decide) (by decide)
  exact ⟨(hok.1 rfl).1, (hok.1 rfl).2.1, (hfail.2 rfl).1⟩

theorem buildFileOperation_existing (templates : String → String) (fs : FS)
    (a : ProcessedArtifact) :
    ((buildFileOperation templates fs a).existing = false ↔
        fsRead fs a.targetPath = none) ∧
    (buildFileOperation templates fs a).targetPath = a.targetPath := by
  cases h : fsRead fs a.targetPath <;> simp [buildFileOperation, h]

theorem runCategoryPolicies_not_force (summaries : List CategorySummary) :
    ∀ e ∈ runCategoryPolicies OverwritePolicy.prompt summaries,
      e.2 ≠ CategoryPolicy.force := by
  intro e he
  simp [runCategoryPolicies, determineCategoryPolicies] at he
  obtain ⟨s, _, rfl⟩ := he
  simp [determineCategoryPolicy]
  split <;> simp

theorem resolvePolicy_not_force (ow : OverwritePolicy)
    (policies : List (String × CategoryPolicy)) (cat : String)
    (hfb : fallbackPolicy ow ≠ CategoryPolicy.force)
    (hpols : ∀ e ∈ policies, e.2 ≠ CategoryPolicy.force) :
    resolvePolicy ow policies cat ≠ CategoryPolicy.force := by
  unfold resolvePolicy
  cases hq : alookup cat policies with
  | none => exact hfb
  | some p => exact hpols _ (alookup_mem _ _ _ hq)

theorem exec_fold_degraded (cfg : ExecConfig)
    (policies : List (String × CategoryPolicy)) (fs0 : FS)
    (hfb : fallbackPolicy cfg.overwrite ≠ CategoryPolicy.force)
    (hpols : ∀ e ∈ policies, e.2 ≠ CategoryPolicy.force) :
    ∀ (ops : List FileOperation) (st : ExecState),
      st.handler = none →
      (∀ op ∈ ops, op.existing = false → fsRead fs0 op.targetPath = none) →
      (execProcessedArtifacts cfg policies st ops).prompts = st.prompts ∧
      (execProcessedArtifacts cfg policies st ops).skipped =
        st.skipped + (ops.filter isConflicting).length ∧
      (execProcessedArtifacts cfg policies st ops).written =
        st.written + (ops.filter (fun op => !op.existing)).length ∧
      (∀ p c, fsRead fs0 p = some c → fsRead st.fs p = some c →
        fsRead (execProcessedArtifacts cfg policies st ops).fs p = some c) := by
  intro ops
  induction ops with
  | nil =>
    intro st _ _
    refine ⟨rfl, by simp [execProcessedArtifacts], by simp [execProcessedArtifacts], ?_⟩
    intro p c _ hcur
    exact hcur
  | cons op rest ih =>
    intro st hh hnew
    have hnotforce := resolvePolicy_not_force cfg.overwrite policies op.category hfb hpols
    have hnewrest : ∀ o ∈ rest, o.existing = false → fsRead fs0 o.targetPath = none :=
      fun o ho => hnew o (List.mem_cons_of_mem _ ho)
    by_cases hex : op.existing = false
    · -- a new file: written, target absent in the reference filesystem
      have hstep : execOp cfg policies st op =
          { st with fs := fsWrite st.fs op.targetPath op.content,
                    written := st.written + 1 } := by
        simp [execOp, hex]
      have h2 := ih
        { st with fs := fsWrite st.fs op.targetPath op.content, written := st.written + 1 }
        (by simp [hh]) hnewrest
      have habs : fsRead fs0 op.targetPath = none := hnew op (List.mem_cons_self _ _) hex
      refine ⟨?_, ?_, ?_, ?_⟩
      · show (execProcessedArtifacts cfg policies (execOp cfg policies st op) rest).prompts = _
        rw [hstep]
        exact h2.1
      · show (execProcessedArtifacts cfg policies (execOp cfg policies st op) rest).skipped = _
        rw [hstep]
        rw [h2.2.1]
        simp [List.filter, isConflicting, hex]
      · show (execProcessedArtifacts cfg policies (execOp cfg policies st op) rest).written = _
        rw [hstep]
        rw [h2.2.2.1]
        simp [List.filter, hex]
        omega
      · intro p c hp hcur
        show fsRead (execProcessedArtifacts cfg policies (execOp cfg policies st op) rest).fs
            p = some c
        rw [hstep]
        refine h2.2.2.2 p c hp ?_
        have hne : op.targetPath ≠ p := by
          intro heq
          rw [heq] at habs
          rw [habs] at hp
          cases hp
        rw [fsRead_write_ne _ _ _ _ hne]
        exact hcur
    · have hex' : op.existing = true := by
        cases hq : op.existing
        · exact absurd hq hex
        · rfl
      by_cases hid : op.identical = true
      · -- identical: no-op
        have hstep : execOp cfg policies st op = st := by
          simp [execOp, hex', hid]
        have h2 := ih st hh hnewrest
        refine ⟨?_, ?_, ?_, ?_⟩
        · show (execProcessedArtifacts cfg policies (execOp cfg policies st op) rest).prompts = _
          rw [hstep]
          exact h2.1
        · show (execProcessedArtifacts cfg policies (execOp cfg policies st op) rest).skipped = _
          rw [hstep, h2.2.1]
          simp [List.filter, isConflicting, hex', hid]
        · show (execProcessedArtifacts cfg policies (execOp cfg policies st op) rest).written = _
          rw [hstep, h2.2.2.1]
          simp [List.filter, hex']
        · intro p c hp hcur
          show fsRead (execProcessedArtifacts cfg policies (execOp cfg policies st op) rest).fs
              p = some c
          rw [hstep]
          exact h2.2.2.2 p c hp hcur
      · -- conflicting: policy skip or prompt, handler absent — skipped either way
        have hid' : op.identical = false := by
          cases hq : op.identical
          · rfl
          · exact absurd hq hid
        have hstep : execOp cfg policies st op = { st with skipped := st.skipped + 1 } := by
          cases hpol : resolvePolicy cfg.overwrite policies op.category with
          | force => exact absurd hpol hnotforce
          | skip => simp [execOp, hex', hid', hpol]
          | prompt => simp [execOp, hex', hid', hpol, hh]
        have h2 := ih { st with skipped := st.skipped + 1 } (by simp [hh]) hnewrest
        refine ⟨?_, ?_, ?_, ?_⟩
        · show (execProcessedArtifacts cfg policies (execOp cfg policies st op) rest).prompts = _
          rw [hstep]
          exact h2.1
        · show (execProcessedArtifacts cfg policies (execOp cfg policies st op) rest).skipped = _
          rw [hstep, h2.2.1]
          simp [List.filter, isConflicting, hex', hid']
          omega
        · show (execProcessedArtifacts cfg policies (execOp cfg policies st op) rest).written = _
          rw [hstep, h2.2.2.1]
          simp [List.filter, hex']
        · intro p c hp hcur
          show fsRead (execProcessedArtifacts cfg policies (execOp cfg policies st op) rest).fs
              p = some c
          rw [hstep]
          exact h2.2.2.2 p c hp hcur

/-- C6: in a non-interactive run no conflict handler is created; under global
prompt a warning is surfaced, the run completes with exit code 0 (not fatal),
no prompt is ever issued (the Executor never blocks on input), every
prompt-policy conflict degrades to a skip — the skipped count equals the number
of conflicting operations — and every existing file keeps its content. -/
theorem non_interactive_prompt_degrades (templates : String → String) (cfg : ExecConfig)
    (ctx : ResolutionContext) (manifest : Option (List CategoryEntry)) (fs : FS)
    (answers : List UserAnswer) (plan : List ProcessedArtifact)
    (how : cfg.overwrite = OverwritePolicy.prompt)
    (hplan : planFromFile ctx manifest = Except.ok plan) :
    createConflictHandler false
        (summarizeCategories (buildFileOperations templates fs plan)) = none ∧
    promptUnavailableWarning ∈
      (runPlanExecutionM templates cfg ctx manifest fs false answers).outputs ∧
    (runPlanExecutionM templates cfg ctx manifest fs false answers).exitCode = 0 ∧
    (execProcessedArtifacts cfg
        (runCategoryPolicies cfg.overwrite
          (summarizeCategories (buildFileOperations templates fs plan)))
        (initExecState fs
          (createConflictHandler false
            (summarizeCategories (buildFileOperations templates fs plan)))
          answers)
        (buildFileOperations templates fs plan)).prompts = 0 ∧
    (runPlanExecutionM templates cfg ctx manifest fs false answers).skipped =
      ((buildFileOperations templates fs plan).filter isConflicting).length ∧
    (∀ p c, fsRead fs p = some c →
      fsRead (runPlanExecutionM templates cfg ctx manifest fs false answers).fs p =
        some c) := by
  have hhandler : createConflictHandler false
      (summarizeCategories (buildFileOperations templates fs plan)) = none := rfl
  have hnew : ∀ op ∈ buildFileOperations templates fs plan,
      op.existing = false → fsRead fs op.targetPath = none := by
    intro op hop hex
    obtain ⟨a, _, rfl⟩ := List.mem_map.1 hop
    have hb := buildFileOperation_existing templates fs a
    rw [hb.2]
    exact hb.1.1 hex
  have hfold := exec_fold_degraded cfg
    (runCategoryPolicies cfg.overwrite
      (summarizeCategories (buildFileOperations templates fs plan)))
    fs (by rw [how]; simp [fallbackPolicy])
    (by rw [how]; exact runCategoryPolicies_not_force _)
    (buildFileOperations templates fs plan)
    (initExecState fs none answers) rfl hnew
  have houtcome :
      runPlanExecutionM templates cfg ctx manifest fs false answers =
        { exitCode := 0,
          fs := (execProcessedArtifacts cfg
            (runCategoryPolicies cfg.overwrite
              (summarizeCategories (buildFileOperations templates fs plan)))
            (initExecState fs none answers)
            (buildFileOperations templates fs plan)).fs,
          outputs :=
            printSummaryLines
                (summarizeCategories (buildFileOperations templates fs plan)) ++
              [promptUnavailableWarning] ++
              [successLine
                (execProcessedArtifacts cfg
                  (runCategoryPolicies cfg.overwrite
                    (summarizeCategories (buildFileOperations templates fs plan)))
                  (initExecState fs none answers)
                  (buildFileOperations templates fs plan)).written
                (execProcessedArtifacts cfg
                  (runCategoryPolicies cfg.overwrite
                    (summarizeCategories (buildFileOperations templates fs plan)))
                  (initExecState fs none answers)
                  (buildFileOperations templates fs plan)).skipped],
          executorInvoked := true,
          written := (execProcessedArtifacts cfg
            (runCategoryPolicies cfg.overwrite
              (summarizeCategories (buildFileOperations templates fs plan)))
            (initExecState fs none answers)
            (buildFileOperations templates fs plan)).written,
          skipped := (execProcessedArtifacts cfg
            (runCategoryPolicies cfg.overwrite
              (summarizeCategories (buildFileOperations templates fs plan)))
            (initExecState fs none answers)
            (buildFileOperations templates fs plan)).skipped } := by
    rw [runPlanExecutionM, hplan]
    simp [createConflictHandler, how]
  refine ⟨hhandler, ?_, ?_, ?_, ?_, ?_⟩
  · rw [houtcome]
    simp
  · rw [houtcome]
  · exact hfold.1
  · rw [houtcome]
    simpa [initExecState] using hfold.2.1
  · intro p c hp
    rw [houtcome]
    exact hfold.2.2.2 p c hp hp

/-- C6 witness: a non-interactive prompt-mode run over one conflicting file
emits the degradation warning, exits 0, issues no prompt, skips the conflict
and leaves the existing file's content unchanged. -/
theorem non_interactive_prompt_degrades_witness :
    promptUnavailableWarning ∈
      (runPlanExecutionM (fun _ => "new")
        { overwrite := OverwritePolicy.prompt, backupEnabled := false, backupDir := "",
          backupFails := fun _ => false }
        { commandsDir := "cmd", agentDir := ".agent", docFile := "DOC.md", lang := "en",
          kiroDir := ".kiro" }
        (some [{ category := "commands", sourceMode := "template",
                 artifacts := [{ source := "tpl/a.md", targetPattern := "cmd/a.md".toList }] }])
        [("cmd/a.md", "old")] false []).outputs ∧
    (runPlanExecutionM (fun _ => "new")
        { overwrite := OverwritePolicy.prompt, backupEnabled := false, backupDir := "",
          backupFails := fun _ => false }
        { commandsDir := "cmd", agentDir := ".agent", docFile := "DOC.md", lang := "en",
          kiroDir := ".kiro" }
        (some [{ category := "commands", sourceMode := "template",
                 artifacts := [{ source := "tpl/a.md", targetPattern := "cmd/a.md".toList }] }])
        [("cmd/a.md", "old")] false []).exitCode = 0 ∧
    fsRead (runPlanExecutionM (fun _ => "new")
        { overwrite := OverwritePolicy.prompt, backupEnabled := false, backupDir := "",
          backupFails := fun _ => false }
        { commandsDir := "cmd", agentDir := ".agent", docFile := "DOC.md", lang := "en",
          kiroDir := ".kiro" }
        (some [{ category := "commands", sourceMode := "template",
                 artifacts := [{ source := "tpl/a.md", targetPattern := "cmd/a.md".toList }] }])
        [("cmd/a.md", "old")] false []).fs "cmd/a.md" = some "old" := by
  have h := non_interactive_prompt_degrades (fun _ => "new")
    { overwrite := OverwritePolicy.prompt, backupEnabled := false, backupDir := "",
      backupFails := fun _ => false }
    { commandsDir := "cmd", agentDir := ".agent", docFile := "DOC.md", lang := "en",
      kiroDir := ".kiro" }
    (some [{ category := "commands", sourceMode := "template",
             artifacts := [{ source := "tpl/a.md", targetPattern := "cmd/a.md".toList }] }])
    [("cmd/a.md", "old")] []
    [{ sourcePath := "tpl/a.md", targetPath := "cmd/a.md", category := "commands",
       sourceMode := "template" }]
    rfl rfl
  exact ⟨h.2.1, h.2.2.1, h.2.2.2.2.2 "cmd/a.md" "old" rfl⟩

theorem containsSeq_braceOpen_of (tok : List Char)
    (hlen : 2 ≤ tok.length) (hpre : List.take 2 tok = braceOpen) :
    ∀ s : List Char, containsSeq tok s = true → containsSeq braceOpen s = true := by
  intro s
  induction s with
  | nil =>
    intro h
    simp [containsSeq] at h
    cases tok with
    | nil => exact absurd hlen (by decide)
    | cons c t => simp at h
  | cons c rest ih =>
    intro h
    simp [containsSeq] at h ⊢
    rcases h with h | h
    · left
      have h2 : List.take 2 (c :: rest) = braceOpen := by
        have h3 : List.take 2 (List.take tok.length (c :: rest)) = List.take 2 tok := by
          rw [h]
        rwa [List.take_take, min_eq_left hlen, hpre] at h3
      have hbl : braceOpen.length = 2 := by decide
      rw [hbl]
      exact h2
    · right
      exact ih h

theorem substitutePattern_no_token (ctx : ResolutionContext) (pattern out : List Char)
    (h : substitutePattern ctx pattern = Except.ok out) :
    ∀ tv ∈ tokenValues ctx, containsSeq tv.1 out = false := by
  have hout : containsSeq braceOpen out = false := by
    simp only [substitutePattern] at h
    split at h
    · exact Except.noConfusion h
    · rename_i hnc
      injection h with h2
      subst h2
      rwa [Bool.not_eq_true] at hnc
  intro tv htv
  have htok : 2 ≤ tv.1.length ∧ List.take 2 tv.1 = braceOpen := by
    simp [tokenValues] at htv
    rcases htv with rfl | rfl | rfl | rfl | rfl <;>
      (dsimp only; exact ⟨by decide, by decide⟩)
  cases hq : containsSeq tv.1 out with
  | false => rfl
  | true =>
    have hcontra := containsSeq_braceOpen_of tv.1 htok.1 htok.2 out hq
    rw [hout] at hcontra
    cases hcontra

theorem substArtifacts_ok (ctx : ResolutionContext) (cat sm : String) :
    ∀ (arts : List ArtifactDescriptor) (out : List ProcessedArtifact),
      substArtifacts ctx cat sm arts = Except.ok out →
      out.length = arts.length ∧
      out.map (fun pa => (pa.category, pa.sourcePath)) =
        arts.map (fun a => (cat, a.source)) ∧
      ∀ pa ∈ out, ∀ tv ∈ tokenValues ctx, containsSeq tv.1 pa.targetPath.data = false := by
  intro arts
  induction arts with
  | nil =>
    intro out h
    simp [substArtifacts] at h
    subst h
    simp
  | cons a rest ih =>
    intro out
    cases hsub : substitutePattern ctx a.targetPattern with
    | error e =>
      intro h
      simp [substArtifacts, hsub] at h
    | ok o =>
      cases hrest : substArtifacts ctx cat sm rest with
      | error e =>
        intro h
        simp [substArtifacts, hsub, hrest] at h
      | ok tail =>
        intro h
        simp [substArtifacts, hsub, hrest] at h
        subst h
        have ih2 := ih tail hrest
        refine ⟨by simp [ih2.1], by simp [ih2.2.1], ?_⟩
        intro pa hpa tv htv
        cases hpa with
        | head =>
          exact substitutePattern_no_token ctx a.targetPattern o hsub tv htv
        | tail _ htl =>
          exact ih2.2.2 pa htl tv htv

theorem planManifest_ok (ctx : ResolutionContext) :
    ∀ (entries : List CategoryEntry) (plan : List ProcessedArtifact),
      planManifest ctx entries = Except.ok plan →
      plan.length = totalArtifacts entries ∧
      plan.map (fun pa => (pa.category, pa.sourcePath)) = declaredArtifacts entries ∧
      ∀ pa ∈ plan, ∀ tv ∈ tokenValues ctx, containsSeq tv.1 pa.targetPath.data = false := by
  intro entries
  induction entries with
  | nil =>
    intro plan h
    simp [planManifest] at h
    subst h
    simp [totalArtifacts, declaredArtifacts]
  | cons e rest ih =>
    intro plan
    cases hsub : substArtifacts ctx e.category e.sourceMode e.artifacts with
    | error m =>
      intro h
      simp [planManifest, hsub] at h
    | ok xs =>
      cases hrest : planManifest ctx rest with
      | error m =>
        intro h
        simp [planManifest, hsub, hrest] at h
      | ok ys =>
        intro h
        simp [planManifest, hsub, hrest] at h
        subst h
        have h1 := substArtifacts_ok ctx e.category e.sourceMode e.artifacts xs hsub
        have h2 := ih ys hrest
        refine ⟨?_, ?_, ?_⟩
        · simp [totalArtifacts, h1.1, h2.1]
        · simp [declaredArtifacts, h1.2.1, h2.2.1]
        · intro pa hpa tv htv
          rcases List.mem_append.1 hpa with hx | hy
          · exact h1.2.2 pa hx tv htv
          · exact h2.2.2 pa hy tv htv

/-- C8: the Manifest Planner either fails with a fatal ManifestError producing
no partial plan, or produces a Processed Plan with exactly one entry per
declared artifact, in manifest declaration order, with no literal placeholder
token remaining in any target path. -/
theorem manifest_planner_spec (ctx : ResolutionContext)
    (manifest : Option (List CategoryEntry)) :
    (∃ e, planFromFile ctx manifest = Except.error e) ∨
    (∃ entries plan, manifest = some entries ∧
      planFromFile ctx manifest = Except.ok plan ∧
      plan.length = totalArtifacts entries ∧
      plan.map (fun pa => (pa.category, pa.sourcePath)) = declaredArtifacts entries ∧
      ∀ pa ∈ plan, ∀ tv ∈ tokenValues ctx, containsSeq tv.1 pa.targetPath.data = false) := by
  cases manifest with
  | none => exact Or.inl ⟨_, rfl⟩
  | some entries =>
    cases h : planManifest ctx entries with
    | error e => exact Or.inl ⟨e, by simp [planFromFile, h]⟩
    | ok plan =>
      have hp := planManifest_ok ctx entries plan h
      exact Or.inr ⟨entries, plan, rfl, by simp [planFromFile, h], hp.1, hp.2.1, hp.2.2⟩

/-- C8 witness: a two-artifact manifest whose patterns use the commands-dir and
kiro-dir placeholders plans to exactly two entries in declaration order with
the placeholders fully resolved. -/
theorem manifest_planner_spec_witness :
    (∃ e, planFromFile
        { commandsDir := "cmd", agentDir := ".agent", docFile := "DOC.md", lang := "en",
          kiroDir := ".kiro" }
        (some [{ category := "commands", sourceMode := "template",
                 artifacts :=
                   [{ source := "tpl/a.md",
                      targetPattern := "\x7b\x7bCOMMANDS_DIR\x7d\x7d/a.md".toList },
                    { source := "tpl/b.md",
                      targetPattern := "\x7b\x7bKIRO_DIR\x7d\x7d/b.md".toList }] }]) =
        Except.error e) ∨
    (∃ entries plan,
      (some [{ category := "commands", sourceMode := "template",
               artifacts :=
                 [{ source := "tpl/a.md",
                    targetPattern := "\x7b\x7bCOMMANDS_DIR\x7d\x7d/a.md".toList },
                  { source := "tpl/b.md",
                    targetPattern := "\x7b\x7bKIRO_DIR\x7d\x7d/b.md".toList }] }] :
        Option (List CategoryEntry)) = some entries ∧
      planFromFile
        { commandsDir := "cmd", agentDir := ".agent", docFile := "DOC.md", lang := "en",
          kiroDir := ".kiro" }
        (some [{ category := "commands", sourceMode := "template",
                 artifacts :=
                   [{ source := "tpl/a.md",
                      targetPattern := "\x7b\x7bCOMMANDS_DIR\x7d\x7d/a.md".toList },
                    { source := "tpl/b.md",
                      targetPattern := "\x7b\x7bKIRO_DIR\x7d\x7d/b.md".toList }] }]) =
        Except.ok plan ∧
      plan.length = totalArtifacts entries ∧
      plan.map (fun pa => (pa.category, pa.sourcePath)) = declaredArtifacts entries ∧
      ∀ pa ∈ plan, ∀ tv ∈ tokenValues
        { commandsDir := "cmd", agentDir := ".agent", docFile := "DOC.md", lang := "en",
          kiroDir := ".kiro" }, containsSeq tv.1 pa.targetPath.data = false) :=
  manifest_planner_spec
    { commandsDir := "cmd", agentDir := ".agent", docFile := "DOC.md", lang := "en",
      kiroDir := ".kiro" }
    (some [{ category := "commands", sourceMode := "template",
             artifacts :=
               [{ source := "tpl/a.md",
                  targetPattern := "\x7b\x7bCOMMANDS_DIR\x7d\x7d/a.md".toList },
                { source := "tpl/b.md",
                  targetPattern := "\x7b\x7bKIRO_DIR\x7d\x7d/b.md".toList }] }])

/-- C9: the exit signal of a plan-execution run is zero exactly when planning
succeeded — a completed run reports its written and skipped counts and exits 0
even when it only skipped files; a fatal planning error exits non-zero. -/
theorem exit_code_spec (templates : String → String) (cfg : ExecConfig)
    (ctx : ResolutionContext) (manifest : Option (List CategoryEntry)) (fs : FS)
    (interactive : Bool) (answers : List UserAnswer) :
    ((runPlanExecutionM templates cfg ctx manifest fs interactive answers).exitCode = 0 ↔
        ∃ plan, planFromFile ctx manifest = Except.ok plan) ∧
    (∀ plan, planFromFile ctx manifest = Except.ok plan →
        (runPlanExecutionM templates cfg ctx manifest fs interactive answers).exitCode = 0 ∧
        successLine
            (runPlanExecutionM templates cfg ctx manifest fs interactive answers).written
            (runPlanExecutionM templates cfg ctx manifest fs interactive answers).skipped ∈
          (runPlanExecutionM templates cfg ctx manifest fs interactive answers).outputs) := by
  cases h : planFromFile ctx manifest with
  | error e =>
    constructor
    · simp [runPlanExecutionM, h]
    · intro plan hp
      exact Except.noConfusion hp
  | ok plan0 =>
    constructor
    · simp [runPlanExecutionM, h]
    · intro plan hp
      constructor
      · simp [runPlanExecutionM, h]
      · simp [runPlanExecutionM, h, List.mem_append]

/-- C9 witness: a skip-mode run over one conflicting file completes with exit
code 0 while reporting one skipped file. -/
theorem exit_code_spec_witness :
    (runPlanExecutionM (fun _ => "new")
        { overwrite := OverwritePolicy.skip, backupEnabled := false, backupDir := "",
          backupFails := fun _ => false }
        { commandsDir := "cmd", agentDir := ".agent", docFile := "DOC.md", lang := "en",
          kiroDir := ".kiro" }
        (some [{ category := "commands", sourceMode := "template",
                 artifacts := [{ source := "tpl/a.md", targetPattern := "cmd/a.md".toList }] }])
        [("cmd/a.md", "old")] false []).exitCode = 0 ∧
    (runPlanExecutionM (fun _ => "new")
        { overwrite := OverwritePolicy.skip, backupEnabled := false, backupDir := "",
          backupFails := fun _ => false }
        { commandsDir := "cmd", agentDir := ".agent", docFile := "DOC.md", lang := "en",
          kiroDir := ".kiro" }
        (some [{ category := "commands", sourceMode := "template",
                 artifacts := [{ source := "tpl/a.md", targetPattern := "cmd/a.md".toList }] }])
        [("cmd/a.md", "old")] false []).skipped = 1 := by
  have h := exit_code_spec (fun _ => "new")
    { overwrite := OverwritePolicy.skip, backupEnabled := false, backupDir := "",
      backupFails := fun _ => false }
    { commandsDir := "cmd", agentDir := ".agent", docFile := "DOC.md", lang := "en",
      kiroDir := ".kiro" }
    (some [{ category := "commands", sourceMode := "template",
             artifacts := [{ source := "tpl/a.md", targetPattern := "cmd/a.md".toList }] }])
    [("cmd/a.md", "old")] false []
  exact ⟨(h.2 [{ sourcePath := "tpl/a.md", targetPath := "cmd/a.md",
                 category := "commands", sourceMode := "template" }] rfl).1, by decide⟩

/-- C3: the `append` choice is offered by the conflict handler exactly when the
file's category is project-memory and its source-mode is not the structured
template-plus-JSON form (`template-json`); otherwise it is absent from the
offered choices. -/
theorem append_offered_iff_project_memory (info : ConflictInfo) :
    ConflictDecision.append ∈ conflictChoices info ↔
      (info.category = "project-memory" ∧ info.sourceMode ≠ "template-json") := by
  unfold conflictChoices
  split
  · simp_all
  · simp_all

/-- C10: under the global-install flag, `resolveAgentLayout` fails exactly when
the agent definition lacks a `globalCommandsDir` — which happens precisely for
github-copilot and windsurf — and on success only `commandsDir` is replaced by
the tilde-expanded global directory while `agentDir` and `docFile` keep their
base values merged with the per-agent override. -/
theorem resolveAgentLayout_global_spec (agent : AgentType) (override : LayoutOverride)
    (home : String) :
    ((∃ e, resolveAgentLayout agent override true home = Except.error e) ↔
        (layoutOf agent).globalCommandsDir = none) ∧
    ((layoutOf agent).globalCommandsDir = none ↔
        (agent = AgentType.githubCopilot ∨ agent = AgentType.windsurf)) ∧
    (∀ g, (layoutOf agent).globalCommandsDir = some g →
        resolveAgentLayout agent override true home =
          Except.ok
            { commandsDir := expandHome home g,
              agentDir := override.agentDir.getD (layoutOf agent).agentDir,
              docFile := override.docFile.getD (layoutOf agent).docFile }) := by
  cases agent <;>
    simp [resolveAgentLayout, layoutOf]

/-- C10 witness: at the cursor agent with no override, global resolution
succeeds and replaces only the commands directory by the expanded global one. -/
theorem resolveAgentLayout_global_spec_witness :
    resolveAgentLayout AgentType.cursor
        { commandsDir := none, agentDir := none, docFile := none } true "/home/user" =
      Except.ok
        { commandsDir := "/home/user/.cursor/commands", agentDir := ".cursor",
          docFile := "AGENTS.md" } := by
  have h :=
    (resolveAgentLayout_global_spec AgentType.cursor
        { commandsDir := none, agentDir := none, docFile := none } "/home/user").2.2
      "~/.cursor/commands" rfl
  rw [h]
  congr 1

end CcSdd
